import Mathlib

/-!
Shallow embedding of `src/deploy/build.py` (the deployment driver).

The script is sequential orchestration: it loads a JSON manifest
(`build.config.json`, a list of deployable units), decides per unit whether a
rebuild is needed by comparing the recorded `version` against
`Deployment.Version` from the unit's appsettings file, invokes the external
build, persists the new version into the manifest, and finally exits 1 iff any
recorded build result is `False`.

Modelling conventions:
* External effects (directory existence, file existence, reading/parsing a
  JSON file, the outcome of `build_activity_api`'s external commands, `yq`
  and `git` invocation outcomes) are an oracle `World` of pure functions.
  `build_activity_api` is treated as the "build collaborator" call contract:
  only its boolean result is observable to `main`'s control flow.
* A manifest entry is a `RawItem` whose fields are `Option String`: `none`
  models an absent dictionary key.  `item['k']` with an absent key raises
  `KeyError`, modelled as the `ItemOut.exc k` outcome which aborts the run
  (the Python exception propagates out of `main`; the interpreter exits 1).
* `config[index]['version'] = version` followed immediately by
  `save_config(config)` (whole-file rewrite) is modelled by rebuilding the
  final manifest list item by item: every mutation is saved at once, so the
  on-disk manifest always equals the in-memory one at loop boundaries, also
  when a later iteration aborts with an exception.  `save_config` and
  `load_config` are assumed to succeed (their failure paths call
  `sys.exit(1)` before any unit is processed or behind an I/O fault we do
  not model).
* `os.chdir`: `build_activity_api` chdirs into the unit path; `main` chdirs
  back to `original_path` only on the success branch, so after a failed
  build the process cwd stays inside the failed unit.  This is observable
  only through relative-path file access, and after the loop starts the only
  relative path the script ever touches is `config_path` in `save_config`,
  which runs strictly after the chdir back to `original_path`.
  (`update_yaml_files` and `commit_changes`, the other relative-path users,
  are never invoked by `main`.)  The cwd is therefore unobservable and not
  threaded through the model.
* `print` logging is not modelled.

String helpers reimplement the Python semantics (`str.lower`, `str.title`,
`str.strip`, `str.split(sep)`, `os.path.join`, `os.path.normpath`,
`os.path.isabs` for POSIX) structurally over `List Char`, so that the kernel
can evaluate them.
-/

namespace Deploy

/-- Python `str.lower` (ASCII). -/
def pyLower (s : String) : String := String.mk (s.data.map Char.toLower)

/-- Python `str.title` (ASCII): a letter following a non-letter is uppercased,
other letters lowercased. -/
def pyTitle (s : String) : String :=
  String.mk ((s.data.foldl
    (fun (st : List Char × Bool) c =>
      if c.isAlpha then
        (st.1 ++ [if st.2 then c.toLower else c.toUpper], true)
      else (st.1 ++ [c], false))
    ([], false)).1)

/-- Python whitespace recognised by `str.strip` (space, tab, newline, carriage
return, vertical tab, form feed). -/
def isPySpace (c : Char) : Bool :=
  c == ' ' || c == '\t' || c == '\n' || c == '\r' ||
    c == Char.ofNat 11 || c == Char.ofNat 12

/-- Python `str.strip()`. -/
def pyStrip (s : String) : String :=
  String.mk (((s.data.dropWhile isPySpace).reverse.dropWhile isPySpace).reverse)

/-- Split a character list at every occurrence of `sep`, keeping empty
pieces, like Python `str.split(sep)` with an explicit separator. -/
def splitCharAux (sep : Char) : List Char → List (List Char)
  | [] => [[]]
  | c :: rest =>
    match splitCharAux sep rest with
    | [] => if c == sep then [[], []] else [[c]]
    | h :: t => if c == sep then [] :: h :: t else (c :: h) :: t

/-- Python `str.split(sep)` for a one-character separator. -/
def pySplit (sep : Char) (s : String) : List String :=
  (splitCharAux sep s.data).map String.mk

/-- Join a list of strings with a separator (Python `sep.join(.)`). -/
def joinSep (sep : String) : List String → String
  | [] => ""
  | [x] => x
  | x :: xs => x ++ sep ++ joinSep sep xs

/-- Kernel-evaluable `String.startsWith`. -/
def strStartsWith (s pre : String) : Bool := List.isPrefixOf pre.data s.data

/-- Kernel-evaluable `String.endsWith`. -/
def strEndsWith (s suf : String) : Bool := List.isSuffixOf suf.data s.data

/-- POSIX `os.path.isabs`. -/
def isAbs (p : String) : Bool := strStartsWith p "/"

/-- POSIX `os.path.join` for two components. -/
def pjoin (a b : String) : String :=
  if strStartsWith b "/" then b
  else if a = "" || strEndsWith a "/" then a ++ b
  else a ++ "/" ++ b

/-- POSIX `os.path.normpath`, following CPython `posixpath.normpath`. -/
def normpath (p : String) : String :=
  if p = "" then "."
  else
    let initialSlashes : Nat :=
      if strStartsWith p "/" then
        if strStartsWith p "//" && !(strStartsWith p "///") then 2 else 1
      else 0
    let newComps := (pySplit '/' p).foldl
      (fun (acc : List String) comp =>
        if comp = "" || comp = "." then acc
        else if comp != ".." || (initialSlashes == 0 && acc.isEmpty) ||
            (acc.getLast? == some "..") then
          acc ++ [comp]
        else acc.dropLast)
      []
    let res := String.mk (List.replicate initialSlashes '/') ++
      joinSep "/" newComps
    if res = "" then "." else res

/-- Path resolution in `main`: `if not os.path.isabs(path): path =
os.path.normpath(os.path.join(original_path, path))`. -/
def resolvePath (origPath path : String) : String :=
  if isAbs path then path else normpath (pjoin origPath path)

/-- JSON values as Python sees them after `json.load` (the fragment the
driver manipulates: strings and objects). -/
inductive JVal where
  | jstr (s : String)
  | jobj (fields : List (String × JVal))

/-- Single-quote character, for Python `repr` of strings. -/
def sq : String := String.singleton (Char.ofNat 39)

mutual

/-- Python `repr` of a JSON value (dicts print with single-quoted keys and
values; escaping inside strings is not modelled). -/
def pyReprJ : JVal → String
  | JVal.jstr s => sq ++ s ++ sq
  | JVal.jobj fs => "\x7b" ++ pyReprFields fs ++ "\x7d"

/-- Python `repr` of the entries of a dict. -/
def pyReprFields : List (String × JVal) → String
  | [] => ""
  | [(k, v)] => sq ++ k ++ sq ++ ": " ++ pyReprJ v
  | (k, v) :: rest => sq ++ k ++ sq ++ ": " ++ pyReprJ v ++ ", " ++ pyReprFields rest

end

/-- Python `str(.)` of a JSON value: identity on strings, `repr` otherwise. -/
def pyStr : JVal → String
  | JVal.jstr s => s
  | v => pyReprJ v

/-- One manifest entry (`build.config.json` element) as a Python dict with
the four keys the driver reads; `none` models an absent key. -/
structure RawItem where
  app : Option String
  path : Option String
  version : Option String
  yaml : Option String
deriving DecidableEq

/-- Arguments of one `build_activity_api` invocation. -/
structure BuildCall where
  path : String
  image_tag : String
  version : String
  build_mode : String
deriving DecidableEq

/-- Externally visible side effects of the driver, in order:
`build` is a `build_activity_api` invocation, `save` a `save_config`
whole-manifest write, `yamlWrite` a `yq -i` image rewrite (only ever emitted
by `update_yaml_files`), `gitCmd` a git invocation (only ever emitted by
`commit_changes`). -/
inductive Action where
  | build (c : BuildCall)
  | save
  | yamlWrite (path : String) (image : String)
  | gitCmd (args : List String)
deriving DecidableEq

/-- Whether an action is a build invocation. -/
def Action.isBuild : Action → Bool
  | Action.build _ => true
  | _ => false

/-- Whether an action is a `yq` yaml image rewrite. -/
def Action.isYamlWrite : Action → Bool
  | Action.yamlWrite _ _ => true
  | _ => false

/-- Whether an action is a git command. -/
def Action.isGit : Action → Bool
  | Action.gitCmd _ => true
  | _ => false

/-- Oracle for the external environment: filesystem predicates, JSON file
contents, and the outcomes of the external commands the driver shells out
to.  `buildOk` takes the arguments of `build_activity_api`
(path, image tag, version, build mode) and yields its boolean result. -/
structure World where
  isDir : String → Bool
  pathExists : String → Bool
  readJson : String → Option JVal
  buildOk : String → String → String → String → Bool
  yqOk : String → Bool
  gitOk : List String → Bool

/-- `REGISTRY_URL` constant from the script. -/
def REGISTRY_URL : String := "vmapi/hubcentral"

/-- `get_app_version`: given the outcome of opening and parsing
`app_setting_path` (`none` = any read/parse exception, which the function
catches and converts to `None`), return
`app_config.get("Deployment", \x7b\x7d).get("Version")`.  A non-dict at either
level raises `AttributeError`, caught and converted to `None` as well. -/
def get_app_version (fileContent : Option JVal) : Option JVal :=
  match fileContent with
  | some (JVal.jobj fields) =>
    match List.lookup "Deployment" fields with
    | some (JVal.jobj dfields) => List.lookup "Version" dfields
    | _ => none
  | _ => none

/-- Selection of the appsettings file in `main`: the environment-specific
`appsettings.{env.title()}.json` when `env.lower()` is `staging` or `dev`
and that file exists, else `appsettings.json`. -/
def settingsPath (w : World) (env path : String) : String :=
  let base := pjoin path "appsettings.json"
  if pyLower env = "staging" || pyLower env = "dev" then
    let envPath := pjoin path ("appsettings." ++ pyTitle env ++ ".json")
    if w.pathExists envPath then envPath else base
  else base

/-- The `version` string `main` ends up with for a unit: `get_app_version`
of the chosen settings file, falling back to the previously recorded version
when that is `None`, then coerced with `str(.)`. -/
def determinedVersion (w : World) (env path oldv : String) : String :=
  match get_app_version (w.readJson (settingsPath w env path)) with
  | none => oldv
  | some v => pyStr v

/-- Outcome of one iteration of `main`'s per-item loop.
`exc k` = `KeyError` on key `k` (aborts the run);
`pathMissing` = `os.path.isdir` failed, `continue` with nothing recorded;
`skipped` = version unchanged, `True` recorded;
`buildFailed` = `build_activity_api` returned `False`, `False` recorded;
`built` = build succeeded, version persisted, `True` recorded. -/
inductive ItemOut where
  | exc (key : String)
  | pathMissing
  | skipped
  | buildFailed (c : BuildCall)
  | built (c : BuildCall) (version : String)
deriving DecidableEq

/-- One iteration of `main`'s loop body over `config`, lines 222-283 of
`build.py`, up to but excluding the effects on `build_results` / `config` /
the action trace (those are applied by `runLoop`). -/
def processItem (w : World) (env mode origPath : String) (item : RawItem) : ItemOut :=
  match item.app with
  | none => ItemOut.exc "app"
  | some app =>
    match item.path with
    | none => ItemOut.exc "path"
    | some path0 =>
      let old_version := item.version.getD "1.0.0"
      match item.yaml with
      | none => ItemOut.exc "yaml"
      | some yamlStr =>
        let yaml_files :=
          if yamlStr.data.contains '|' then pySplit '|' yamlStr else [yamlStr]
        let image_tag := app
        let path := resolvePath origPath path0
        if w.isDir path = false then ItemOut.pathMissing
        else
          let version := determinedVersion w env path old_version
          if old_version = version then ItemOut.skipped
          else if w.buildOk path image_tag version mode then
            ItemOut.built ⟨path, image_tag, version, mode⟩ version
          else ItemOut.buildFailed ⟨path, image_tag, version, mode⟩

/-- Result of running `main`'s loop on a suffix of the manifest:
the final on-disk manifest entries for that suffix, the `build_results`
entries contributed, the external actions performed, and whether an
unhandled exception aborted the loop (with the missing key). -/
structure LoopOut where
  manifest : List RawItem
  results : List Bool
  acts : List Action
  abort : Option String
deriving DecidableEq

/-- `main`'s per-item loop (lines 222-283).  On `KeyError` the rest of the
manifest is left untouched and unprocessed; a missing path records nothing;
a skip records `True`; a failed build records `False` and leaves the entry
unchanged; a successful build records `True`, sets the entry's `version`,
and saves the whole manifest (`save_config`). -/
def runLoop (w : World) (env mode origPath : String) : List RawItem → LoopOut
  | [] => ⟨[], [], [], none⟩
  | item :: rest =>
    match processItem w env mode origPath item with
    | ItemOut.exc k => ⟨item :: rest, [], [], some k⟩
    | ItemOut.pathMissing =>
      let r := runLoop w env mode origPath rest
      ⟨item :: r.manifest, r.results, r.acts, r.abort⟩
    | ItemOut.skipped =>
      let r := runLoop w env mode origPath rest
      ⟨item :: r.manifest, true :: r.results, r.acts, r.abort⟩
    | ItemOut.buildFailed c =>
      let r := runLoop w env mode origPath rest
      ⟨item :: r.manifest, false :: r.results, Action.build c :: r.acts, r.abort⟩
    | ItemOut.built c v =>
      let r := runLoop w env mode origPath rest
      ⟨{ item with version := some v } :: r.manifest, true :: r.results,
        Action.build c :: Action.save :: r.acts, r.abort⟩

/-- Whole-process result: loop output plus the process exit code
(lines 285-291: exit 1 iff `False in build_results`; an unhandled
`KeyError` makes the interpreter exit 1). -/
structure RunResult where
  manifest : List RawItem
  results : List Bool
  acts : List Action
  abort : Option String
  exitCode : Nat
deriving DecidableEq

/-- The driver run after the manifest was successfully loaded:
`main` lines 219-291. -/
def run (w : World) (env mode origPath : String) (config : List RawItem) : RunResult :=
  let r := runLoop w env mode origPath config
  ⟨r.manifest, r.results, r.acts, r.abort,
    match r.abort with
    | some _ => 1
    | none => if r.results.contains false then 1 else 0⟩

/-- `update_yaml_files` (lines 153-175), defined in the script but never
invoked by `main`.  Returns its boolean result and the `yq` rewrite actions
performed: a missing yaml file is skipped with a warning; a failed `yq`
invocation stops and returns `False`. -/
def update_yaml_files (w : World) (env : String) (yaml_files : List String)
    (image_tag : String) (version : String) : Bool × List Action :=
  match yaml_files with
  | [] => (true, [])
  | yf :: rest =>
    let yamlFile := pyStrip yf
    let yaml_path := "app/activity/" ++ pyLower env ++ "/" ++ yamlFile
    if w.pathExists yaml_path = false then
      update_yaml_files w env rest image_tag version
    else
      let image_value := REGISTRY_URL ++ ":" ++ image_tag ++ "." ++ version
      if w.yqOk yaml_path then
        let r := update_yaml_files w env rest image_tag version
        (r.1, Action.yamlWrite yaml_path image_value :: r.2)
      else (false, [Action.yamlWrite yaml_path image_value])

/-- Commit message of `commit_changes` (line 179):
`" ".join(f"{item['app']}::{item.get('version', '1.0.0')}")`; `none` models
the `KeyError` raised when an item lacks the `app` key. -/
def commitParts : List RawItem → Option (List String)
  | [] => some []
  | it :: rest =>
    match it.app with
    | none => none
    | some a =>
      (commitParts rest).map (fun l => (a ++ "::" ++ it.version.getD "1.0.0") :: l)

/-- The joined commit message, `none` when a `KeyError` is raised. -/
def commitMsg (config : List RawItem) : Option String :=
  (commitParts config).map (joinSep " ")

/-- Run a list of git commands in order, stopping at the first failure,
recording the invocations performed (the loop of `commit_changes`). -/
def runGit (w : World) : List (List String) → Bool × List Action
  | [] => (true, [])
  | c :: rest =>
    if w.gitOk c then
      let r := runGit w rest
      (r.1, Action.gitCmd c :: r.2)
    else (false, [Action.gitCmd c])

/-- `commit_changes` (lines 177-194), defined in the script but never
invoked by `main`: stage the manifest, stage the yamls, commit with the
concatenated `app::version` message, push. -/
def commit_changes (w : World) (env : String) (config : List RawItem) :
    Option (Bool × List Action) :=
  (commitMsg config).map (fun msg =>
    runGit w
      [["git", "add", "app/activity/" ++ pyLower env ++ "/build.config.json"],
       ["git", "add", "app/activity/" ++ pyLower env ++ "/*.yaml"],
       ["git", "commit", "-m", "Update activity " ++ env ++ " deployments: " ++ msg],
       ["git", "push"]])

/-! Concrete fixtures used by the counterexamples and witnesses. -/

/-- Appsettings content declaring `Deployment.Version = "2.0"`. -/
def settingsJson : JVal :=
  JVal.jobj [("Deployment", JVal.jobj [("Version", JVal.jstr "2.0")])]

/-- World where every directory exists, every file except
`app/activity/dev/missing.yaml` exists, every settings file declares
version `"2.0"`, and every external command succeeds. -/
def w1 : World :=
  ⟨fun _ => true,
   fun p => !(p == "app/activity/dev/missing.yaml"),
   fun _ => some settingsJson,
   fun _ _ _ _ => true,
   fun _ => true,
   fun _ => true⟩

/-- Like `w1` but every `build_activity_api` invocation fails. -/
def wFail : World := { w1 with buildOk := fun _ _ _ _ => false }

/-- Like `w1` but every settings read fails (or the field is missing). -/
def wNone : World := { w1 with readJson := fun _ => none }

/-- Like `w1` but no unit source directory exists. -/
def w9 : World := { w1 with isDir := fun _ => false }

def itemC1 : RawItem := ⟨some "svc1", some "/repo/svc1", some "1.0", some "dep.yaml"⟩
def itemC3 : RawItem := ⟨some "svc3", some "/repo/svc3", some "1.0", some "dep.yaml"⟩
def itemC4 : RawItem := ⟨some "svc4", some "/repo/svc4", some "1.0", some "dep.yaml"⟩
def itemC5 : RawItem := ⟨some "svc5", some "/repo/svc5", some "1.0", some "dep.yaml"⟩

/-- Entry whose recorded version already equals the settings version. -/
def itemC5s : RawItem := ⟨some "svc5", some "/repo/svc5", some "2.0", some "dep.yaml"⟩

def itemC6 : RawItem := ⟨some "svc6", some "/repo/svc6", some "1.0", some "dep.yaml"⟩

/-- Second entry behind `itemC6`; its version matches, so it skips. -/
def itemC6b : RawItem := ⟨some "svc6b", some "/repo/svc6b", some "2.0", some "dep.yaml"⟩

def itemC7 : RawItem := ⟨some "svc7", some "/repo/svc7", some "1.5", some "dep.yaml"⟩
def itemC9 : RawItem := ⟨some "svc9", some "/repo/svc9", some "1.0", some "dep.yaml"⟩

/-- Entry with no `app` key. -/
def iNoApp : RawItem := ⟨none, some "/p", some "1.0", some "dep.yaml"⟩

/-- Entry used to exercise the `version` key default. -/
def iDef : RawItem := ⟨some "svcd", some "/repo/svcd", none, some "dep.yaml"⟩

def itemA : RawItem := ⟨some "svc1", some "/repo/svc1", some "2.0", some "dep.yaml"⟩
def itemB : RawItem := ⟨some "svc2", some "/repo/svc2", none, some "dep.yaml"⟩

/-- Pointwise relation between a manifest entry before the run and the same
entry after the run: all fields other than `version` are unchanged, and the
`version` field differs only when that unit's build succeeded, in which case
it holds the newly built version. -/
def itemRel (w : World) (env mode origPath : String) (a b : RawItem) : Prop :=
  b.app = a.app ∧ b.path = a.path ∧ b.yaml = a.yaml ∧
    (b.version ≠ a.version →
      ∃ c v, processItem w env mode origPath a = ItemOut.built c v ∧ b.version = some v)

/-! Unfolding equations for `runLoop`, one per loop-body outcome. -/

lemma runLoop_cons_exc (w : World) (env mode origPath : String) (item : RawItem)
    (rest : List RawItem) (k : String)
    (h : processItem w env mode origPath item = ItemOut.exc k) :
    runLoop w env mode origPath (item :: rest) = ⟨item :: rest, [], [], some k⟩ := by
  simp [runLoop, h]

lemma runLoop_cons_pathMissing (w : World) (env mode origPath : String) (item : RawItem)
    (rest : List RawItem)
    (h : processItem w env mode origPath item = ItemOut.pathMissing) :
    runLoop w env mode origPath (item :: rest) =
      ⟨item :: (runLoop w env mode origPath rest).manifest,
       (runLoop w env mode origPath rest).results,
       (runLoop w env mode origPath rest).acts,
       (runLoop w env mode origPath rest).abort⟩ := by
  simp [runLoop, h]

lemma runLoop_cons_skipped (w : World) (env mode origPath : String) (item : RawItem)
    (rest : List RawItem)
    (h : processItem w env mode origPath item = ItemOut.skipped) :
    runLoop w env mode origPath (item :: rest) =
      ⟨item :: (runLoop w env mode origPath rest).manifest,
       true :: (runLoop w env mode origPath rest).results,
       (runLoop w env mode origPath rest).acts,
       (runLoop w env mode origPath rest).abort⟩ := by
  simp [runLoop, h]

lemma runLoop_cons_buildFailed (w : World) (env mode origPath : String) (item : RawItem)
    (rest : List RawItem) (c : BuildCall)
    (h : processItem w env mode origPath item = ItemOut.buildFailed c) :
    runLoop w env mode origPath (item :: rest) =
      ⟨item :: (runLoop w env mode origPath rest).manifest,
       false :: (runLoop w env mode origPath rest).results,
       Action.build c :: (runLoop w env mode origPath rest).acts,
       (runLoop w env mode origPath rest).abort⟩ := by
  simp [runLoop, h]

lemma runLoop_cons_built (w : World) (env mode origPath : String) (item : RawItem)
    (rest : List RawItem) (c : BuildCall) (v : String)
    (h : processItem w env mode origPath item = ItemOut.built c v) :
    runLoop w env mode origPath (item :: rest) =
      ⟨{ item with version := some v } :: (runLoop w env mode origPath rest).manifest,
       true :: (runLoop w env mode origPath rest).results,
       Action.build c :: Action.save :: (runLoop w env mode origPath rest).acts,
       (runLoop w env mode origPath rest).abort⟩ := by
  simp [runLoop, h]

/-- Every action `main`'s loop ever performs is a build invocation or a
manifest save: no `yq` yaml rewrite, no git command. -/
lemma runLoop_acts_shape (w : World) (env mode origPath : String) (cfg : List RawItem) :
    ∀ a ∈ (runLoop w env mode origPath cfg).acts,
      a.isYamlWrite = false ∧ a.isGit = false := by
  induction cfg with
  | nil => simp [runLoop]
  | cons item rest ih =>
    cases h : processItem w env mode origPath item with
    | exc k => simp [runLoop_cons_exc w env mode origPath item rest k h]
    | pathMissing =>
      simpa [runLoop_cons_pathMissing w env mode origPath item rest h] using ih
    | skipped =>
      simpa [runLoop_cons_skipped w env mode origPath item rest h] using ih
    | buildFailed c =>
      intro a ha
      rw [runLoop_cons_buildFailed w env mode origPath item rest c h] at ha
      rcases List.mem_cons.mp ha with rfl | ha
      · exact ⟨rfl, rfl⟩
      · exact ih a ha
    | built c v =>
      intro a ha
      rw [runLoop_cons_built w env mode origPath item rest c v h] at ha
      rcases List.mem_cons.mp ha with rfl | ha
      · exact ⟨rfl, rfl⟩
      · rcases List.mem_cons.mp ha with rfl | ha
        · exact ⟨rfl, rfl⟩
        · exact ih a ha

/-- The driver never performs a `yq` yaml rewrite. -/
lemma run_no_yaml (w : World) (env mode origPath : String) (cfg : List RawItem) :
    ((run w env mode origPath cfg).acts.filter Action.isYamlWrite) = [] := by
  show ((runLoop w env mode origPath cfg).acts.filter Action.isYamlWrite) = []
  rw [List.filter_eq_nil_iff]
  intro a ha
  simp [(runLoop_acts_shape w env mode origPath cfg a ha).1]

/-- The driver never performs a git command. -/
lemma run_no_git (w : World) (env mode origPath : String) (cfg : List RawItem) :
    ((run w env mode origPath cfg).acts.filter Action.isGit) = [] := by
  show ((runLoop w env mode origPath cfg).acts.filter Action.isGit) = []
  rw [List.filter_eq_nil_iff]
  intro a ha
  simp [(runLoop_acts_shape w env mode origPath cfg a ha).2]

/-- After a successful build recorded version `v`, reprocessing the updated
entry in the same world skips: the settings version is re-read identically
and now equals the recorded one. -/
lemma built_then_skip (w : World) (env mode origPath : String) (item : RawItem)
    (c : BuildCall) (v : String)
    (h : processItem w env mode origPath item = ItemOut.built c v) :
    processItem w env mode origPath { item with version := some v } = ItemOut.skipped := by
  obtain ⟨iapp, ipath, iver, iyaml⟩ := item
  cases iapp with
  | none => simp [processItem] at h
  | some a =>
    cases ipath with
    | none => simp [processItem] at h
    | some p =>
      cases iyaml with
      | none => simp [processItem] at h
      | some y =>
        simp only [processItem] at h ⊢
        cases hd : w.isDir (resolvePath origPath p) with
        | false => simp [hd] at h
        | true =>
          simp only [hd] at h ⊢
          cases hg : get_app_version
              (w.readJson (settingsPath w env (resolvePath origPath p))) with
          | none => simp [determinedVersion, hg] at h
          | some jv =>
            simp only [determinedVersion, hg] at h ⊢
            by_cases he : (iver.getD "1.0.0") = pyStr jv
            · simp [he] at h
            · simp only [if_neg he] at h
              by_cases hb : w.buildOk (resolvePath origPath p) a (pyStr jv) mode = true
              · simp only [hb, if_true, if_pos] at h
                have hv : pyStr jv = v := (ItemOut.built.inj h).2
                simp [hv]
              · simp [hb] at h

/-- If the first pass over `cfg` records no failed build, a second pass over
the resulting manifest performs no build invocation. -/
lemma run_idem_aux (w : World) (env mode origPath : String) :
    ∀ cfg : List RawItem,
      (runLoop w env mode origPath cfg).results.contains false = false →
      ((runLoop w env mode origPath
          (runLoop w env mode origPath cfg).manifest).acts.filter Action.isBuild) = [] := by
  intro cfg
  induction cfg with
  | nil => intro _; simp [runLoop]
  | cons item rest ih =>
    intro hok
    cases h : processItem w env mode origPath item with
    | exc k =>
      rw [runLoop_cons_exc w env mode origPath item rest k h]
      rw [runLoop_cons_exc w env mode origPath item rest k h]
      simp
    | pathMissing =>
      rw [runLoop_cons_pathMissing w env mode origPath item rest h] at hok ⊢
      rw [runLoop_cons_pathMissing w env mode origPath item
        (runLoop w env mode origPath rest).manifest h]
      exact ih hok
    | skipped =>
      rw [runLoop_cons_skipped w env mode origPath item rest h] at hok ⊢
      rw [runLoop_cons_skipped w env mode origPath item
        (runLoop w env mode origPath rest).manifest h]
      simp only [List.contains_cons] at hok
      exact ih (by simpa using hok)
    | buildFailed c =>
      rw [runLoop_cons_buildFailed w env mode origPath item rest c h] at hok
      simp [List.contains_cons] at hok
    | built c v =>
      rw [runLoop_cons_built w env mode origPath item rest c v h] at hok ⊢
      rw [runLoop_cons_skipped w env mode origPath { item with version := some v }
        (runLoop w env mode origPath rest).manifest
        (built_then_skip w env mode origPath item c v h)]
      simp only [List.contains_cons] at hok
      exact ih (by simpa using hok)

lemma itemRel_refl (w : World) (env mode origPath : String) (a : RawItem) :
    itemRel w env mode origPath a a :=
  ⟨rfl, rfl, rfl, fun hne => absurd rfl hne⟩

lemma forall2_itemRel_refl (w : World) (env mode origPath : String) :
    ∀ l : List RawItem, List.Forall₂ (itemRel w env mode origPath) l l
  | [] => List.Forall₂.nil
  | a :: l =>
    List.Forall₂.cons (itemRel_refl w env mode origPath a)
      (forall2_itemRel_refl w env mode origPath l)

/-- Every run relates the input manifest to the final on-disk manifest
pointwise by `itemRel`, in order. -/
lemma runLoop_manifest_rel (w : World) (env mode origPath : String) :
    ∀ cfg : List RawItem,
      List.Forall₂ (itemRel w env mode origPath) cfg
        (runLoop w env mode origPath cfg).manifest := by
  intro cfg
  induction cfg with
  | nil => exact List.Forall₂.nil
  | cons item rest ih =>
    cases h : processItem w env mode origPath item with
    | exc k =>
      rw [runLoop_cons_exc w env mode origPath item rest k h]
      exact List.Forall₂.cons (itemRel_refl w env mode origPath item)
        (forall2_itemRel_refl w env mode origPath rest)
    | pathMissing =>
      rw [runLoop_cons_pathMissing w env mode origPath item rest h]
      exact List.Forall₂.cons (itemRel_refl w env mode origPath item) ih
    | skipped =>
      rw [runLoop_cons_skipped w env mode origPath item rest h]
      exact List.Forall₂.cons (itemRel_refl w env mode origPath item) ih
    | buildFailed c =>
      rw [runLoop_cons_buildFailed w env mode origPath item rest c h]
      exact List.Forall₂.cons (itemRel_refl w env mode origPath item) ih
    | built c v =>
      rw [runLoop_cons_built w env mode origPath item rest c v h]
      exact List.Forall₂.cons ⟨rfl, rfl, rfl, fun _ => ⟨c, v, h, rfl⟩⟩ ih

/-- Claim C1: the claim says that in full (non-CI) mode, after a unit's
build succeeds, the driver rewrites the image reference in each of the
unit's yaml files (a missing yaml file being a non-fatal warning).  The
code defines `update_yaml_files` with exactly that behaviour but `main`
never calls it: a full-mode run whose build succeeds performs no yaml
rewrite at all.  The theorem shows (1) no run in any mode ever performs a
`yq` rewrite action, (2) at the failing input a full-mode ("CICD") build
succeeds (result `true`, manifest version bumped) yet the action trace is
exactly one build and one manifest save, and (3) the uncalled
`update_yaml_files` itself does skip a missing yaml file non-fatally and
rewrite the remaining ones to the newly tagged image. -/
theorem claim_C1 :
    (∀ (w : World) (env mode origPath : String) (cfg : List RawItem),
      ((run w env mode origPath cfg).acts.filter Action.isYamlWrite) = [])
    ∧ (run w1 "dev" "CICD" "/repo" [itemC1]).results = [true]
    ∧ (run w1 "dev" "CICD" "/repo" [itemC1]).acts
        = [Action.build ⟨"/repo/svc1", "svc1", "2.0", "CICD"⟩, Action.save]
    ∧ update_yaml_files w1 "dev" ["missing.yaml", "dep.yaml"] "svc1" "2.0"
        = (true, [Action.yamlWrite "app/activity/dev/dep.yaml" "vmapi/hubcentral:svc1.2.0"]) :=
  ⟨run_no_yaml, by decide, by decide, by decide⟩

/-- Claim C2: the claim says that in full mode, after all units are
processed, the driver stages the manifest and the yamls, commits with the
concatenated `app::version` message, and pushes.  The code defines
`commit_changes` with exactly those commands but `main` never calls it: no
run in any mode performs any git command (first conjunct).  The second
conjunct shows the uncalled `commit_changes` would produce exactly the
claimed staging/commit/push sequence, including the space-separated
`app::version` message with the `1.0.0` default. -/
theorem claim_C2 :
    (∀ (w : World) (env mode origPath : String) (cfg : List RawItem),
      ((run w env mode origPath cfg).acts.filter Action.isGit) = [])
    ∧ commit_changes w1 "dev" [itemA, itemB]
        = some (true,
            [Action.gitCmd ["git", "add", "app/activity/dev/build.config.json"],
             Action.gitCmd ["git", "add", "app/activity/dev/*.yaml"],
             Action.gitCmd ["git", "commit", "-m",
               "Update activity dev deployments: svc1::2.0 svc2::1.0.0"],
             Action.gitCmd ["git", "push"]]) :=
  ⟨run_no_git, by decide⟩

/-- Claim C3: the claim says a unit's manifest version is updated only
after its build succeeds and, outside CI mode, only after its
image-reference rewrite also succeeds.  The build part holds, but in the
code the rewrite step is never invoked: at the failing input (full mode
"CICD", build succeeds) the version is persisted as "2.0" although the
action trace contains no yaml rewrite whatsoever; and when the build fails
the version is indeed kept. -/
theorem claim_C3 :
    (run w1 "dev" "CICD" "/repo" [itemC3]).manifest
        = [⟨some "svc3", some "/repo/svc3", some "2.0", some "dep.yaml"⟩]
    ∧ ((run w1 "dev" "CICD" "/repo" [itemC3]).acts.filter Action.isYamlWrite) = []
    ∧ (run wFail "dev" "CICD" "/repo" [itemC3]).manifest = [itemC3]
    ∧ (run wFail "dev" "CICD" "/repo" [itemC3]).results = [false] :=
  ⟨by decide, by decide, by decide, by decide⟩

/-- Claim C4 counterexample: with a unit whose settings version ("2.0")
differs from its recorded version ("1.0") and whose build always fails,
the first run leaves the manifest unchanged, so a second run with the same
(unchanged) runtime settings invokes the build again: the second run
performs one build, not zero, refuting the unconditional idempotence
sentence of the claim. -/
theorem claim_C4_cex :
    (run wFail "dev" "CICD" "/repo" [itemC4]).manifest = [itemC4]
    ∧ (run wFail "dev" "CICD" "/repo"
        ((run wFail "dev" "CICD" "/repo" [itemC4]).manifest)).acts
      = [Action.build ⟨"/repo/svc4", "svc4", "2.0", "CICD"⟩] :=
  ⟨by decide, by decide⟩

/-- Claim C4 (amended): (1) the skip rule as stated: when the version
determined from the runtime settings equals the previously recorded one,
the unit is marked skipped and no build is invoked; (2) idempotence holds
provided every build invoked in the first run succeeded (no `false` in the
first run's results): the second run over the resulting manifest performs
zero build invocations. -/
theorem claim_C4 (w : World) (env mode origPath : String) (item : RawItem)
    (cfg : List RawItem) :
    (∀ a p y, item.app = some a → item.path = some p → item.yaml = some y →
      w.isDir (resolvePath origPath p) = true →
      determinedVersion w env (resolvePath origPath p) (item.version.getD "1.0.0")
          = item.version.getD "1.0.0" →
      processItem w env mode origPath item = ItemOut.skipped)
    ∧ ((run w env mode origPath cfg).results.contains false = false →
      ((run w env mode origPath
          (run w env mode origPath cfg).manifest).acts.filter Action.isBuild) = []) := by
  constructor
  · intro a p y ha hp hy hd hv
    obtain ⟨iapp, ipath, iver, iyaml⟩ := item
    simp only at ha hp hy
    subst ha; subst hp; subst hy
    simp only at hv
    simp only [processItem, hd, hv, Bool.true_eq_false, if_false, if_pos]
  · intro hok
    exact run_idem_aux w env mode origPath cfg hok

/-- Claim C4 witness: the skip rule fires for a unit whose recorded version
"2.0" equals the settings version, and after a first run over `[itemC4]`
with no failed build, the second run performs zero builds. -/
theorem claim_C4_witness :
    processItem w1 "dev" "CICD" "/repo" itemC5s = ItemOut.skipped
    ∧ ((run w1 "dev" "CICD" "/repo"
        (run w1 "dev" "CICD" "/repo" [itemC4]).manifest).acts.filter Action.isBuild) = [] :=
  ⟨(claim_C4 w1 "dev" "CICD" "/repo" itemC5s [itemC4]).1
      "svc5" "/repo/svc5" "dep.yaml" rfl rfl rfl (by decide) (by decide),
   (claim_C4 w1 "dev" "CICD" "/repo" itemC5s [itemC4]).2 (by decide)⟩

/-- Claim C5: the process exit code is 1 whenever any unit's build
invocation failed (a `false` in `build_results`), in every build mode,
including "CI" (the aggregate check `if False in build_results` is
mode-independent); and the exit code is 0 when the run did not abort and
every recorded result is a success (built or skipped). -/
theorem claim_C5 (w : World) (env mode origPath : String) (cfg : List RawItem) :
    ((run w env mode origPath cfg).results.contains false = true →
      (run w env mode origPath cfg).exitCode = 1)
    ∧ ((run w env mode origPath cfg).abort = none →
      (run w env mode origPath cfg).results.contains false = false →
      (run w env mode origPath cfg).exitCode = 0) := by
  constructor
  · intro h
    simp only [run] at h ⊢
    have h2 : false ∈ (runLoop w env mode origPath cfg).results := by simpa using h
    cases hab : (runLoop w env mode origPath cfg).abort with
    | none => simp [hab, h2]
    | some k => simp [hab]
  · intro hab h
    simp only [run] at hab h ⊢
    have h2 : false ∉ (runLoop w env mode origPath cfg).results := by simpa using h
    simp [hab, h2]

/-- Claim C5 witness: a CI-mode run whose single unit's build fails exits 1,
and a CI-mode run whose single unit skips exits 0. -/
theorem claim_C5_witness :
    (run wFail "dev" "CI" "/repo" [itemC5]).exitCode = 1
    ∧ (run w1 "dev" "CI" "/repo" [itemC5s]).exitCode = 0 :=
  ⟨(claim_C5 wFail "dev" "CI" "/repo" [itemC5]).1 (by decide),
   (claim_C5 w1 "dev" "CI" "/repo" [itemC5s]).2 (by decide) (by decide)⟩

/-- Claim C6: when a unit's build invocation fails, the loop records
`False` for it, leaves its manifest entry (in particular its version)
unchanged, performs no further action for it, and continues with the
remaining entries exactly as it otherwise would; the overall exit code is
then 1. -/
theorem claim_C6 (w : World) (env mode origPath : String) (item : RawItem)
    (rest : List RawItem) (c : BuildCall)
    (h : processItem w env mode origPath item = ItemOut.buildFailed c) :
    runLoop w env mode origPath (item :: rest) =
      ⟨item :: (runLoop w env mode origPath rest).manifest,
       false :: (runLoop w env mode origPath rest).results,
       Action.build c :: (runLoop w env mode origPath rest).acts,
       (runLoop w env mode origPath rest).abort⟩
    ∧ (run w env mode origPath (item :: rest)).exitCode = 1 := by
  have he := runLoop_cons_buildFailed w env mode origPath item rest c h
  refine ⟨he, ?_⟩
  simp only [run, he]
  cases hab : (runLoop w env mode origPath rest).abort with
  | none => simp [hab]
  | some k => simp [hab]

/-- Claim C6 witness: `itemC6`'s build fails under `wFail`; the loop
records `false`, keeps the entry, and still processes `itemC6b`, and the
run exits 1. -/
theorem claim_C6_witness :
    runLoop wFail "dev" "CICD" "/repo" [itemC6, itemC6b] =
      ⟨itemC6 :: (runLoop wFail "dev" "CICD" "/repo" [itemC6b]).manifest,
       false :: (runLoop wFail "dev" "CICD" "/repo" [itemC6b]).results,
       Action.build ⟨"/repo/svc6", "svc6", "2.0", "CICD"⟩
         :: (runLoop wFail "dev" "CICD" "/repo" [itemC6b]).acts,
       (runLoop wFail "dev" "CICD" "/repo" [itemC6b]).abort⟩
    ∧ (run wFail "dev" "CICD" "/repo" [itemC6, itemC6b]).exitCode = 1 :=
  claim_C6 wFail "dev" "CICD" "/repo" itemC6 [itemC6b]
    ⟨"/repo/svc6", "svc6", "2.0", "CICD"⟩ (by decide)

/-- Claim C7: when reading the runtime settings fails or the nested
`Deployment.Version` field is missing (`get_app_version` yields `None`),
the determined version falls back to the version recorded in the manifest,
and the unit is therefore skipped (a success, not a failure of the unit or
of the run).  The warning print is not modelled. -/
theorem claim_C7 (w : World) (env mode origPath : String) (item : RawItem)
    (a p y : String)
    (ha : item.app = some a) (hp : item.path = some p) (hy : item.yaml = some y)
    (hd : w.isDir (resolvePath origPath p) = true)
    (hr : get_app_version
        (w.readJson (settingsPath w env (resolvePath origPath p))) = none) :
    determinedVersion w env (resolvePath origPath p) (item.version.getD "1.0.0")
        = item.version.getD "1.0.0"
    ∧ processItem w env mode origPath item = ItemOut.skipped := by
  have hv : determinedVersion w env (resolvePath origPath p)
      (item.version.getD "1.0.0") = item.version.getD "1.0.0" := by
    simp [determinedVersion, hr]
  refine ⟨hv, ?_⟩
  obtain ⟨iapp, ipath, iver, iyaml⟩ := item
  simp only at ha hp hy
  subst ha; subst hp; subst hy
  simp only at hv
  simp only [processItem, hd, hv, Bool.true_eq_false, if_false, if_pos]

/-- Claim C7 witness: under `wNone` (all settings reads fail) `itemC7`
falls back to its recorded "1.5" and is skipped. -/
theorem claim_C7_witness :
    determinedVersion wNone "dev" (resolvePath "/repo" "/repo/svc7") "1.5" = "1.5"
    ∧ processItem wNone "dev" "CICD" "/repo" itemC7 = ItemOut.skipped :=
  claim_C7 wNone "dev" "CICD" "/repo" itemC7 "svc7" "/repo/svc7" "dep.yaml"
    rfl rfl rfl (by decide) rfl

/-- Claim C8: after any run (in any mode, aborted or not), the final
manifest has the same element count and order as the input, every field
other than `version` of every entry is unchanged, and an entry's `version`
differs only when that unit's build succeeded (in which case it holds the
newly built version). -/
theorem claim_C8 (w : World) (env mode origPath : String) (cfg : List RawItem) :
    (run w env mode origPath cfg).manifest.length = cfg.length
    ∧ List.Forall₂ (itemRel w env mode origPath) cfg
        (run w env mode origPath cfg).manifest := by
  have h := runLoop_manifest_rel w env mode origPath cfg
  exact ⟨(List.Forall₂.length_eq h).symm, h⟩

/-- Claim C9 counterexample: for a single-unit manifest whose source path
does not exist, the run records NOTHING for that unit — `build_results`
stays empty (no failure, no skip entry) — and the process exits 0, whereas
the claim says a failure/skip is recorded for the unit. -/
theorem claim_C9_cex :
    (run w9 "dev" "CICD" "/repo" [itemC9]).results = []
    ∧ (run w9 "dev" "CICD" "/repo" [itemC9]).exitCode = 0 :=
  ⟨by decide, by decide⟩

/-- Claim C9 (amended): a unit whose resolved source path is not a
directory produces the `pathMissing` outcome: the loop logs the error,
records no outcome entry for that unit (the results aggregate deciding the
exit code is untouched), leaves the entry unchanged, performs no action
for it, and continues with the remaining entries exactly as it otherwise
would — so a bad path neither aborts the run nor prevents other units from
being processed. -/
theorem claim_C9 (w : World) (env mode origPath : String) (item : RawItem)
    (rest : List RawItem) (a p y : String)
    (ha : item.app = some a) (hp : item.path = some p) (hy : item.yaml = some y)
    (hd : w.isDir (resolvePath origPath p) = false) :
    processItem w env mode origPath item = ItemOut.pathMissing
    ∧ runLoop w env mode origPath (item :: rest) =
      ⟨item :: (runLoop w env mode origPath rest).manifest,
       (runLoop w env mode origPath rest).results,
       (runLoop w env mode origPath rest).acts,
       (runLoop w env mode origPath rest).abort⟩ := by
  have hpm : processItem w env mode origPath item = ItemOut.pathMissing := by
    obtain ⟨iapp, ipath, iver, iyaml⟩ := item
    simp only at ha hp hy
    subst ha; subst hp; subst hy
    simp only [processItem, hd, if_pos]
  exact ⟨hpm, runLoop_cons_pathMissing w env mode origPath item rest hpm⟩

/-- Claim C9 witness: `itemC9`'s path is missing under `w9`; nothing is
recorded for it and `itemC5s` behind it is still processed. -/
theorem claim_C9_witness :
    processItem w9 "dev" "CICD" "/repo" itemC9 = ItemOut.pathMissing
    ∧ runLoop w9 "dev" "CICD" "/repo" [itemC9, itemC5s] =
      ⟨itemC9 :: (runLoop w9 "dev" "CICD" "/repo" [itemC5s]).manifest,
       (runLoop w9 "dev" "CICD" "/repo" [itemC5s]).results,
       (runLoop w9 "dev" "CICD" "/repo" [itemC5s]).acts,
       (runLoop w9 "dev" "CICD" "/repo" [itemC5s]).abort⟩ :=
  claim_C9 w9 "dev" "CICD" "/repo" itemC9 [itemC5s] "svc9" "/repo/svc9" "dep.yaml"
    rfl rfl rfl (by decide)

/-- Claim C10: an entry missing the `app`, `path` or `yaml` key raises an
unhandled `KeyError` that aborts the entire run (the rest of the manifest
is left unprocessed and the process exits 1, not an isolated per-unit
failure), whereas a missing `version` key is tolerated: the entry is
processed exactly as if its recorded version were "1.0.0". -/
theorem claim_C10 (w : World) (env mode origPath : String) (item : RawItem)
    (rest : List RawItem) :
    (item.app = none →
      runLoop w env mode origPath (item :: rest) = ⟨item :: rest, [], [], some "app"⟩
      ∧ (run w env mode origPath (item :: rest)).exitCode = 1)
    ∧ (item.app ≠ none → item.path = none →
      runLoop w env mode origPath (item :: rest) = ⟨item :: rest, [], [], some "path"⟩
      ∧ (run w env mode origPath (item :: rest)).exitCode = 1)
    ∧ (item.app ≠ none → item.path ≠ none → item.yaml = none →
      runLoop w env mode origPath (item :: rest) = ⟨item :: rest, [], [], some "yaml"⟩
      ∧ (run w env mode origPath (item :: rest)).exitCode = 1)
    ∧ processItem w env mode origPath { item with version := none }
        = processItem w env mode origPath { item with version := some "1.0.0" } := by
  obtain ⟨iapp, ipath, iver, iyaml⟩ := item
  refine ⟨?_, ?_, ?_, ?_⟩
  · intro ha
    simp only at ha
    subst ha
    have he := runLoop_cons_exc w env mode origPath ⟨none, ipath, iver, iyaml⟩ rest "app" rfl
    exact ⟨he, by simp [run, he]⟩
  · intro ha hp
    simp only at ha hp
    subst hp
    cases iapp with
    | none => exact absurd rfl ha
    | some a =>
      have he := runLoop_cons_exc w env mode origPath
        ⟨some a, none, iver, iyaml⟩ rest "path" rfl
      exact ⟨he, by simp [run, he]⟩
  · intro ha hp hy
    simp only at ha hp hy
    subst hy
    cases iapp with
    | none => exact absurd rfl ha
    | some a =>
      cases ipath with
      | none => exact absurd rfl hp
      | some p =>
        have he := runLoop_cons_exc w env mode origPath
          ⟨some a, some p, iver, none⟩ rest "yaml" rfl
        exact ⟨he, by simp [run, he]⟩
  · cases iapp <;> cases ipath <;> cases iyaml <;> rfl

/-- Claim C10 witness: a manifest whose single entry lacks `app` aborts
with the `KeyError` and exit code 1; an entry lacking only `version` is
processed as if its version were "1.0.0". -/
theorem claim_C10_witness :
    (runLoop w1 "dev" "CICD" "/repo" [iNoApp] = ⟨[iNoApp], [], [], some "app"⟩
      ∧ (run w1 "dev" "CICD" "/repo" [iNoApp]).exitCode = 1)
    ∧ processItem w1 "dev" "CICD" "/repo" { iDef with version := none }
        = processItem w1 "dev" "CICD" "/repo" { iDef with version := some "1.0.0" } :=
  ⟨(claim_C10 w1 "dev" "CICD" "/repo" iNoApp []).1 rfl,
   (claim_C10 w1 "dev" "CICD" "/repo" iDef []).2.2.2⟩

end Deploy
